import Mathlib

/-!
# go_shortURL: a shallow embedding of `main.go`

The program is a small URL shortener: a token generator (`generateShortURL`),
a process-wide map from token to URL (`urlMap`) and three HTTP handlers
registered in `main`.

Modelling conventions.

* A Go `string` is an immutable sequence of bytes: `GoString` is a list of
  byte values.  The literals of the source are written `str "..."`, their
  UTF-8 bytes (Go source text is UTF-8).
* The map `urlMap` is passed explicitly: every handler takes the map before
  the request and returns the map after it.
* The six bytes that `rand.Read(b)` leaves in `b` are an input, `Rand6`.
* A run-time panic (slice out of range, duplicate route registration) is a
  `none` / `Except.error` result.
* A handler's answer is recorded as the call it makes on the
  `http.ResponseWriter` (`http.Error`, `http.Redirect`, `tmpl.Execute`) with
  the arguments of that call.
-/

namespace ShortURL

/-! ## Strings -/

/-- A Go string: its bytes. -/
abbrev GoString := List Nat

/-- The bytes of a string literal of the source (UTF-8). -/
def str (s : String) : GoString := (s.toUTF8.data.toList).map UInt8.toNat

/-- Go `strings.HasPrefix(s, pfx)`:
`len(s) >= len(pfx) && s[:len(pfx)] == pfx`. -/
def HasPrefix (s pfx : GoString) : Bool :=
  decide (s.length ≥ pfx.length) && decide (s.take pfx.length = pfx)

/-- Go `strings.TrimPrefix(s, pfx)`: `s[len(pfx):]` when `HasPrefix(s, pfx)`,
otherwise `s`. -/
def TrimPrefix (s pfx : GoString) : GoString :=
  if HasPrefix s pfx then s.drop pfx.length else s

/-- The slice expression `s[:hi]`; it panics (`none`) when `hi > len(s)`. -/
def sliceTo (s : GoString) (hi : Nat) : Option GoString :=
  if hi ≤ s.length then some (s.take hi) else none

/-! ## `encoding/base64`, `URLEncoding` -/

/-- The alphabet of `base64.URLEncoding` (`encodeURL` in `encoding/base64`). -/
def encodeURL : GoString :=
  str "ABCDEFGHIJKLMNOPQRSTUVWXYZabcdefghijklmnopqrstuvwxyz0123456789-_"

/-- The table lookup `enc.encode[i]`; every index the encoder uses is masked with `0x3F`. -/
def encode (i : Nat) : Nat := encodeURL.getD i 0

/-- The padding character of `URLEncoding`, `StdPadding = '='`. -/
def StdPadding : Nat := ('=').toNat

/-- Go `(*Encoding).Encode` for `URLEncoding`, returning the bytes written to `dst`.
Full groups of three source bytes give four characters; a remainder of one or
two bytes gives two or three characters and padding.  `val` is a `uint` below
`2^24`, so no wrap-around occurs. -/
def Encode : List Nat → GoString
  | b0 :: b1 :: b2 :: rest =>
    let val := ((b0 <<< 16) ||| (b1 <<< 8)) ||| b2
    encode ((val >>> 18) &&& 0x3F) :: encode ((val >>> 12) &&& 0x3F) ::
      encode ((val >>> 6) &&& 0x3F) :: encode (val &&& 0x3F) :: Encode rest
  | [b0, b1] =>
    let val := (b0 <<< 16) ||| (b1 <<< 8)
    [encode ((val >>> 18) &&& 0x3F), encode ((val >>> 12) &&& 0x3F),
      encode ((val >>> 6) &&& 0x3F), StdPadding]
  | [b0] =>
    let val := b0 <<< 16
    [encode ((val >>> 18) &&& 0x3F), encode ((val >>> 12) &&& 0x3F), StdPadding, StdPadding]
  | [] => []

/-- Go `(*Encoding).EncodeToString`: the encoded bytes as a string. -/
def EncodeToString (src : List Nat) : GoString := Encode src

/-! ## Token generator -/

/-- The content of the buffer `b := make([]byte, 6)` after `rand.Read(b)`:
six bytes chosen by the random source.  The source ignores the results of
`rand.Read`; whatever the call leaves in `b`, it is six bytes. -/
abbrev Rand6 := Fin 6 → Fin 256

/-- The buffer `b` as a byte list. -/
def randRead (rnd : Rand6) : List Nat :=
  [(rnd 0).val, (rnd 1).val, (rnd 2).val, (rnd 3).val, (rnd 4).val, (rnd 5).val]

/-- Source `generateShortURL`: `base64.URLEncoding.EncodeToString(b)[:6]`. -/
def generateShortURL (rnd : Rand6) : Option GoString :=
  sliceTo (EncodeToString (randRead rnd)) 6

/-! ## The store `urlMap` -/

/-- The Go map `map[string]string`. -/
abbrev Store := GoString → Option GoString

/-- The initial value `make(map[string]string)`. -/
def emptyStore : Store := fun _ => none

/-- The assignment `urlMap[k] = v`. -/
def Store.put (m : Store) (k v : GoString) : Store :=
  fun k' => if k' = k then some v else m k'

/-! ## Requests and responses -/

/-- The parts of `*http.Request` the handlers read: `r.Method`, `r.URL.Path`
and `r.FormValue("url")`. -/
structure Request where
  method : GoString
  path : GoString
  formURL : GoString

/-- `http.StatusBadRequest`. -/
def StatusBadRequest : Nat := 400
/-- `http.StatusMovedPermanently`. -/
def StatusMovedPermanently : Nat := 301
/-- `http.StatusNotFound`. -/
def StatusNotFound : Nat := 404
/-- `http.StatusOK`, the status of a response on which no status was set. -/
def StatusOK : Nat := 200

/-- What a handler does with its `http.ResponseWriter`. -/
inductive Response where
  /-- Nothing is written. -/
  | empty
  /-- The call `tmpl.Execute(w, PageData{ShortURL: shortURL})`. -/
  | page (shortURL : GoString)
  /-- The call `http.Error(w, msg, code)`. -/
  | error (msg : GoString) (code : Nat)
  /-- The call `http.Redirect(w, r, url, code)`. -/
  | redirect (url : GoString) (code : Nat)
  deriving DecidableEq

/-- The status code of a response. -/
def Response.status : Response → Nat
  | .empty => StatusOK
  | .page _ => StatusOK
  | .error _ code => code
  | .redirect _ code => code

/-- Whether the response is a redirect. -/
def Response.isRedirect : Response → Bool
  | .redirect _ _ => true
  | _ => false

/-- The result of running a handler: the map afterwards, the response, and
the token returned by `generateShortURL()` when the handler called it. -/
structure Outcome where
  urlMap : Store
  resp : Response
  generated : Option GoString

/-! ## Handlers -/

/-- The first handler registered on `"/"` (source lines 70-75). -/
def indexHandler (urlMap : Store) (r : Request) : Outcome :=
  if r.method = str "GET" then
    ⟨urlMap, .page (str ""), none⟩
  else
    ⟨urlMap, .empty, none⟩

/-- The URL check of the `/shorten` handler (source lines 87-89). -/
def normalizeURL (url : GoString) : GoString :=
  if !HasPrefix url (str "http://") && !HasPrefix url (str "https://") then
    str "https://" ++ url
  else
    url

/-- The handler registered on `"/shorten"` (source lines 78-101); `none` is a panic. -/
def shortenHandler (urlMap : Store) (r : Request) (rnd : Rand6) : Option Outcome :=
  if r.method = str "POST" then
    let url := r.formURL
    if url = str "" then
      some ⟨urlMap, .error (str "URLを入力してください") StatusBadRequest, none⟩
    else
      let url := normalizeURL url
      match generateShortURL rnd with
      | none => none
      | some shortURL =>
        some ⟨urlMap.put shortURL url, .page (str "http://localhost:8080/" ++ shortURL),
          some shortURL⟩
  else
    some ⟨urlMap, .empty, none⟩

/-- The second handler registered on `"/"` (source lines 104-114). -/
def lookupHandler (urlMap : Store) (r : Request) : Outcome :=
  let path := TrimPrefix r.path (str "/")
  if path ≠ str "" then
    match urlMap path with
    | some originalURL => ⟨urlMap, .redirect originalURL StatusMovedPermanently, none⟩
    | none => ⟨urlMap, .error (str "URLが見つかりません") StatusNotFound, none⟩
  else
    ⟨urlMap, .empty, none⟩

/-! ## Sequences of requests -/

/-- One request together with the handler that serves it. -/
inductive Call where
  | index (r : Request)
  | shorten (r : Request) (rnd : Rand6)
  | lookup (r : Request)

/-- Serving one call. -/
def serve (urlMap : Store) : Call → Option Outcome
  | .index r => some (indexHandler urlMap r)
  | .shorten r rnd => shortenHandler urlMap r rnd
  | .lookup r => some (lookupHandler urlMap r)

/-- Serving a sequence of calls, one after the other; `none` when a handler panics. -/
def run (urlMap : Store) : List Call → Option Store
  | [] => some urlMap
  | c :: cs =>
    match serve urlMap c with
    | none => none
    | some out => run out.urlMap cs

/-! ## Route registration in `main` -/

/-- The three handler closures of `main`. -/
inductive HandlerId where
  | index
  | shorten
  | lookup
  deriving DecidableEq

/-- The patterns registered on `http.DefaultServeMux`, with their handlers. -/
abbrev ServeMux := List (GoString × HandlerId)

/-- The panics of `net/http` route registration. -/
inductive Panic where
  | invalidPattern
  | multipleRegistrations (pattern : GoString)
  deriving DecidableEq

/-- Go `http.HandleFunc(pattern, handler)` on the default mux.  `ServeMux.Handle`
panics on an empty pattern and when the pattern is already registered
("http: multiple registrations for " + pattern). -/
def HandleFunc (mux : ServeMux) (pattern : GoString) (h : HandlerId) : Except Panic ServeMux :=
  if pattern = str "" then
    .error .invalidPattern
  else if mux.any (fun e => decide (e.1 = pattern)) then
    .error (.multipleRegistrations pattern)
  else
    .ok (mux ++ [(pattern, h)])

/-- Source `main` up to the call of `http.ListenAndServe`: the three
registrations in source order (the template constant parses, so
`template.Must` returns).  `.ok mux` means `ListenAndServe` is reached with
routing table `mux`. -/
def main : Except Panic ServeMux := do
  let mux ← HandleFunc [] (str "/") .index
  let mux ← HandleFunc mux (str "/shorten") .shorten
  let mux ← HandleFunc mux (str "/") .lookup
  pure mux

/-! ## Auxiliary definitions used by the statements -/

/-- The reference normalization, as the specification words it: the input
unchanged when it starts with `http://` or with `https://`, otherwise the
input prefixed with `https://`. -/
def normalizeRef (u : GoString) : GoString :=
  if str "http://" <+: u ∨ str "https://" <+: u then u else str "https://" ++ u

/-- The URL-safe alphabet: `A-Z`, `a-z`, `0-9`, `-` and `_`. -/
def isURLSafe (c : Nat) : Bool :=
  (decide (('A').toNat ≤ c) && decide (c ≤ ('Z').toNat)) ||
  (decide (('a').toNat ≤ c) && decide (c ≤ ('z').toNat)) ||
  (decide (('0').toNat ≤ c) && decide (c ≤ ('9').toNat)) ||
  decide (c = ('-').toNat) || decide (c = ('_').toNat)

/-- The table indices of the six characters of the token, in terms of the random bytes. -/
def tokenIdx (rnd : Rand6) : List Nat :=
  [(rnd 0).val / 4, (rnd 0).val % 4 * 16 + (rnd 1).val / 16,
   (rnd 1).val % 16 * 4 + (rnd 2).val / 64, (rnd 2).val % 64,
   (rnd 3).val / 4, (rnd 3).val % 4 * 16 + (rnd 4).val / 16]

/-- Thirty-six bits. -/
abbrev Key36 := Fin 256 × Fin 256 × Fin 256 × Fin 256 × Fin 16

/-- The first 36 bits of a buffer: bytes 0-3 and the high four bits of byte 4. -/
def key36 (r : Rand6) : Key36 :=
  (r 0, r 1, r 2, r 3, ⟨(r 4).val / 16, by have := (r 4).isLt; omega⟩)

/-- A buffer with given first 36 bits, the other bits zero. -/
def ofKey36 (k : Key36) : Rand6 :=
  ![k.1, k.2.1, k.2.2.1, k.2.2.2.1, ⟨k.2.2.2.2.val * 16, by have := k.2.2.2.2.isLt; omega⟩, 0]

/-- The set of tokens `generateShortURL` can return. -/
def possibleTokens : Set GoString := {t | ∃ r, generateShortURL r = some t}

/-- Every value of the map starts with `http://` or with `https://`. -/
def ValuesHaveScheme (m : Store) : Prop :=
  ∀ k v, m k = some v → HasPrefix v (str "http://") = true ∨ HasPrefix v (str "https://") = true

/-- A `POST /shorten` request submitting `url`. -/
def postShorten (url : GoString) : Request :=
  ⟨str "POST", str "/shorten", url⟩

/-- A `GET` request for `path`. -/
def getPath (path : GoString) : Request :=
  ⟨str "GET", path, str ""⟩

/-- The all-zero random buffer. -/
def zeroRand : Rand6 := fun _ => 0

/-- No call of the list is a storing shorten request whose random bytes encode to `T`. -/
def NoRegeneration (T : GoString) (calls : List Call) : Prop :=
  ∀ r rnd, Call.shorten r rnd ∈ calls → r.method = str "POST" → r.formURL ≠ str "" →
    generateShortURL rnd ≠ some T

/-! ## Lemmas: base64 and the token -/

theorem encodeURL_eq : encodeURL =
    [65, 66, 67, 68, 69, 70, 71, 72, 73, 74, 75, 76, 77, 78, 79, 80, 81, 82, 83, 84, 85, 86, 87,
     88, 89, 90, 97, 98, 99, 100, 101, 102, 103, 104, 105, 106, 107, 108, 109, 110, 111, 112, 113,
     114, 115, 116, 117, 118, 119, 120, 121, 122, 48, 49, 50, 51, 52, 53, 54, 55, 56, 57, 45, 95] := by
  decide

theorem encodeURL_length : encodeURL.length = 64 := by
  rw [encodeURL_eq]; rfl

theorem encodeURL_nodup : encodeURL.Nodup := by
  rw [encodeURL_eq]; decide

theorem encode_eq_getElem (i : Nat) (h : i < encodeURL.length) : encode i = encodeURL[i] := by
  unfold encode
  rw [List.getD_eq_getElem _ _ h]

theorem encode_inj {i j : Nat} (hi : i < 64) (hj : j < 64) (h : encode i = encode j) : i = j := by
  have hi' : i < encodeURL.length := by rw [encodeURL_length]; exact hi
  have hj' : j < encodeURL.length := by rw [encodeURL_length]; exact hj
  rw [encode_eq_getElem i hi', encode_eq_getElem j hj'] at h
  exact (List.Nodup.getElem_inj_iff encodeURL_nodup).1 h

theorem val3_eq (b0 : Nat) {b1 b2 : Nat} (h1 : b1 < 256) (h2 : b2 < 256) :
    ((b0 <<< 16) ||| (b1 <<< 8)) ||| b2 = b0 * 65536 + b1 * 256 + b2 := by
  have e1 : (b0 <<< 16) ||| (b1 <<< 8) = 2 ^ 16 * b0 + b1 * 256 := by
    rw [Nat.shiftLeft_eq, Nat.shiftLeft_eq, Nat.mul_comm b0 (2 ^ 16)]
    exact (Nat.mul_add_lt_is_or (by omega) b0).symm
  have e2 : 2 ^ 16 * b0 + b1 * 256 = 2 ^ 8 * (b0 * 256 + b1) := by omega
  rw [e1, e2, ← Nat.mul_add_lt_is_or (by omega)]
  omega

theorem mask_eq (x : Nat) : x &&& 0x3F = x % 64 :=
  Nat.and_pow_two_sub_one_eq_mod x 6

theorem tokenIdx_lt (rnd : Rand6) : ∀ i ∈ tokenIdx rnd, i < 64 := by
  intro i hi
  have h0 := (rnd 0).isLt
  have h1 := (rnd 1).isLt
  have h2 := (rnd 2).isLt
  have h3 := (rnd 3).isLt
  have h4 := (rnd 4).isLt
  simp only [tokenIdx, List.mem_cons, List.mem_singleton, List.not_mem_nil, or_false] at hi
  omega

theorem EncodeToString_randRead (rnd : Rand6) :
    EncodeToString (randRead rnd) =
      (tokenIdx rnd).map encode ++
        [encode ((rnd 4).val % 16 * 4 + (rnd 5).val / 64), encode ((rnd 5).val % 64)] := by
  have h0 := (rnd 0).isLt
  have h1 := (rnd 1).isLt
  have h2 := (rnd 2).isLt
  have h3 := (rnd 3).isLt
  have h4 := (rnd 4).isLt
  have h5 := (rnd 5).isLt
  have hv1 := val3_eq (rnd 0).val h1 h2
  have hv2 := val3_eq (rnd 3).val h4 h5
  simp only [EncodeToString, randRead, Encode, hv1, hv2, mask_eq, Nat.shiftRight_eq_div_pow,
    tokenIdx, List.map_cons, List.map_nil, List.cons_append, List.nil_append]
  have a0 : ((rnd 0).val * 65536 + (rnd 1).val * 256 + (rnd 2).val) / 2 ^ 18 % 64
      = (rnd 0).val / 4 := by omega
  have a1 : ((rnd 0).val * 65536 + (rnd 1).val * 256 + (rnd 2).val) / 2 ^ 12 % 64
      = (rnd 0).val % 4 * 16 + (rnd 1).val / 16 := by omega
  have a2 : ((rnd 0).val * 65536 + (rnd 1).val * 256 + (rnd 2).val) / 2 ^ 6 % 64
      = (rnd 1).val % 16 * 4 + (rnd 2).val / 64 := by omega
  have a3 : ((rnd 0).val * 65536 + (rnd 1).val * 256 + (rnd 2).val) % 64
      = (rnd 2).val % 64 := by omega
  have c0 : ((rnd 3).val * 65536 + (rnd 4).val * 256 + (rnd 5).val) / 2 ^ 18 % 64
      = (rnd 3).val / 4 := by omega
  have c1 : ((rnd 3).val * 65536 + (rnd 4).val * 256 + (rnd 5).val) / 2 ^ 12 % 64
      = (rnd 3).val % 4 * 16 + (rnd 4).val / 16 := by omega
  have c2 : ((rnd 3).val * 65536 + (rnd 4).val * 256 + (rnd 5).val) / 2 ^ 6 % 64
      = (rnd 4).val % 16 * 4 + (rnd 5).val / 64 := by omega
  have c3 : ((rnd 3).val * 65536 + (rnd 4).val * 256 + (rnd 5).val) % 64
      = (rnd 5).val % 64 := by omega
  rw [a0, a1, a2, a3, c0, c1, c2, c3]

theorem generateShortURL_eq (rnd : Rand6) :
    generateShortURL rnd = some ((tokenIdx rnd).map encode) := by
  unfold generateShortURL
  rw [EncodeToString_randRead]
  simp [sliceTo, tokenIdx]

theorem encode_urlSafe : ∀ i, i < 64 → isURLSafe (encode i) = true := by
  unfold encode
  rw [encodeURL_eq]
  decide

theorem isURLSafe_excludes (c : Nat) (h : isURLSafe c = true) :
    c ≠ ('=').toNat ∧ c ≠ ('/').toNat ∧ c ≠ ('+').toNat ∧ c ≠ ('.').toNat := by
  simp only [isURLSafe, Bool.or_eq_true, Bool.and_eq_true, decide_eq_true_eq] at h
  have e1 : ('A').toNat = 65 := rfl
  have e2 : ('Z').toNat = 90 := rfl
  have e3 : ('a').toNat = 97 := rfl
  have e4 : ('z').toNat = 122 := rfl
  have e5 : ('0').toNat = 48 := rfl
  have e6 : ('9').toNat = 57 := rfl
  have e7 : ('-').toNat = 45 := rfl
  have e8 : ('_').toNat = 95 := rfl
  have e9 : ('=').toNat = 61 := rfl
  have e10 : ('/').toNat = 47 := rfl
  have e11 : ('+').toNat = 43 := rfl
  have e12 : ('.').toNat = 46 := rfl
  rw [e1, e2, e3, e4, e5, e6, e7, e8] at h
  rw [e9, e10, e11, e12]
  omega

theorem key36_ofKey36 (k : Key36) : key36 (ofKey36 k) = k := by
  obtain ⟨a, b, c, d, e⟩ := k
  simp [key36, ofKey36]

theorem generateShortURL_eq_iff (r r' : Rand6) :
    generateShortURL r = generateShortURL r' ↔ key36 r = key36 r' := by
  have h0 := (r 0).isLt
  have h1 := (r 1).isLt
  have h2 := (r 2).isLt
  have h3 := (r 3).isLt
  have h4 := (r 4).isLt
  have g0 := (r' 0).isLt
  have g1 := (r' 1).isLt
  have g2 := (r' 2).isLt
  have g3 := (r' 3).isLt
  have g4 := (r' 4).isLt
  rw [generateShortURL_eq, generateShortURL_eq]
  constructor
  · intro h
    simp only [tokenIdx, List.map_cons, List.map_nil, Option.some.injEq, List.cons.injEq,
      and_true] at h
    obtain ⟨e0, e1, e2, e3, e4, e5⟩ := h
    have i0 := encode_inj (by omega) (by omega) e0
    have i1 := encode_inj (by omega) (by omega) e1
    have i2 := encode_inj (by omega) (by omega) e2
    have i3 := encode_inj (by omega) (by omega) e3
    have i4 := encode_inj (by omega) (by omega) e4
    have i5 := encode_inj (by omega) (by omega) e5
    simp only [key36, Prod.mk.injEq, Fin.mk.injEq, Fin.ext_iff]
    omega
  · intro h
    simp only [key36, Prod.mk.injEq, Fin.mk.injEq, Fin.ext_iff] at h
    obtain ⟨e0, e1, e2, e3, e4⟩ := h
    simp only [tokenIdx, e0, e1, e2, e3, e4]

theorem possibleTokens_ncard : possibleTokens.ncard = 2 ^ 36 := by
  have hinj : Function.Injective (fun k : Key36 => (tokenIdx (ofKey36 k)).map encode) := by
    intro k k' h
    have h' : generateShortURL (ofKey36 k) = generateShortURL (ofKey36 k') := by
      rw [generateShortURL_eq, generateShortURL_eq]; exact congrArg some h
    have := (generateShortURL_eq_iff _ _).1 h'
    rwa [key36_ofKey36, key36_ofKey36] at this
  have hset : possibleTokens = Set.range (fun k : Key36 => (tokenIdx (ofKey36 k)).map encode) := by
    ext t
    simp only [possibleTokens, Set.mem_setOf_eq, Set.mem_range]
    constructor
    · rintro ⟨r, hr⟩
      refine ⟨key36 r, ?_⟩
      have e : generateShortURL (ofKey36 (key36 r)) = generateShortURL r :=
        (generateShortURL_eq_iff _ _).2 (key36_ofKey36 _)
      rw [generateShortURL_eq, hr] at e
      exact Option.some.inj e
    · rintro ⟨k, hk⟩
      exact ⟨ofKey36 k, by rw [generateShortURL_eq, hk]⟩
  rw [hset, ← Set.image_univ, Set.ncard_image_of_injective _ hinj, Set.ncard_univ,
    Nat.card_eq_fintype_card]
  simp only [Fintype.card_prod, Fintype.card_fin]
  norm_num

/-! ## Lemmas: strings and handlers -/

theorem str_empty : str "" = [] := by decide

theorem str_slash : str "/" = [47] := by decide

theorem HasPrefix_iff (s pfx : GoString) : HasPrefix s pfx = true ↔ pfx <+: s := by
  unfold HasPrefix
  rw [Bool.and_eq_true, decide_eq_true_iff, decide_eq_true_iff, List.prefix_iff_eq_take]
  constructor
  · rintro ⟨_, h⟩
    exact h.symm
  · intro h
    refine ⟨?_, h.symm⟩
    have hl := congrArg List.length h
    rw [List.length_take] at hl
    omega

theorem HasPrefix_append (pfx s : GoString) : HasPrefix (pfx ++ s) pfx = true :=
  (HasPrefix_iff _ _).2 (List.prefix_append pfx s)

theorem TrimPrefix_append (pfx s : GoString) : TrimPrefix (pfx ++ s) pfx = s := by
  unfold TrimPrefix
  rw [if_pos (HasPrefix_append pfx s)]
  exact List.drop_left pfx s

theorem normalizeURL_eq_ref (u : GoString) : normalizeURL u = normalizeRef u := by
  unfold normalizeURL normalizeRef
  by_cases h1 : HasPrefix u (str "http://") = true
  · have h1' := (HasPrefix_iff _ _).1 h1
    simp [h1, h1']
  · by_cases h2 : HasPrefix u (str "https://") = true
    · have h2' := (HasPrefix_iff _ _).1 h2
      simp [h2, h2']
    · have h1' : ¬ str "http://" <+: u := fun h => h1 ((HasPrefix_iff _ _).2 h)
      have h2' : ¬ str "https://" <+: u := fun h => h2 ((HasPrefix_iff _ _).2 h)
      simp [h1, h2, h1', h2']

theorem normalizeURL_scheme (u : GoString) :
    HasPrefix (normalizeURL u) (str "http://") = true ∨
      HasPrefix (normalizeURL u) (str "https://") = true := by
  unfold normalizeURL
  by_cases h1 : HasPrefix u (str "http://") = true
  · simp [h1]
  · by_cases h2 : HasPrefix u (str "https://") = true
    · simp [h2]
    · right
      simp only [h1, h2, Bool.not_false, Bool.and_self, if_true]
      exact HasPrefix_append _ _

theorem generateShortURL_ne_empty (rnd : Rand6) : generateShortURL rnd ≠ some (str "") := by
  rw [generateShortURL_eq, str_empty]
  simp [tokenIdx]

theorem shortenHandler_post (s : Store) (r : Request) (rnd : Rand6)
    (hm : r.method = str "POST") (hu : r.formURL ≠ str "") :
    shortenHandler s r rnd =
      some ⟨s.put ((tokenIdx rnd).map encode) (normalizeURL r.formURL),
        .page (str "http://localhost:8080/" ++ (tokenIdx rnd).map encode),
        some ((tokenIdx rnd).map encode)⟩ := by
  unfold shortenHandler
  simp only [hm, hu, if_true, if_false, generateShortURL_eq]

theorem shortenHandler_total (s : Store) (r : Request) (rnd : Rand6) :
    ∃ out, shortenHandler s r rnd = some out := by
  by_cases hm : r.method = str "POST"
  · by_cases hu : r.formURL = str ""
    · refine ⟨⟨s, .error (str "URLを入力してください") StatusBadRequest, none⟩, ?_⟩
      unfold shortenHandler
      simp only [hm, hu, if_true]
    · exact ⟨_, shortenHandler_post s r rnd hm hu⟩
  · refine ⟨⟨s, .empty, none⟩, ?_⟩
    unfold shortenHandler
    simp only [hm, if_false]

theorem Store.put_same (m : Store) (k v : GoString) : m.put k v k = some v := by
  simp [Store.put]

theorem Store.put_other (m : Store) (k v k' : GoString) (h : k' ≠ k) : m.put k v k' = m k' := by
  simp [Store.put, h]

theorem lookupHandler_found (s : Store) (r : Request) (v : GoString)
    (hp : TrimPrefix r.path (str "/") ≠ str "") (hv : s (TrimPrefix r.path (str "/")) = some v) :
    lookupHandler s r = ⟨s, .redirect v StatusMovedPermanently, none⟩ := by
  unfold lookupHandler
  simp only [ne_eq, hp, not_false_eq_true, if_true, hv]

theorem lookupHandler_missing (s : Store) (r : Request)
    (hp : TrimPrefix r.path (str "/") ≠ str "") (hv : s (TrimPrefix r.path (str "/")) = none) :
    lookupHandler s r = ⟨s, .error (str "URLが見つかりません") StatusNotFound, none⟩ := by
  unfold lookupHandler
  simp only [ne_eq, hp, not_false_eq_true, if_true, hv]

theorem lookupHandler_root (s : Store) (r : Request)
    (hp : TrimPrefix r.path (str "/") = str "") :
    lookupHandler s r = ⟨s, .empty, none⟩ := by
  unfold lookupHandler
  simp only [ne_eq, hp, not_true_eq_false, if_false]

theorem lookupHandler_urlMap (s : Store) (r : Request) : (lookupHandler s r).urlMap = s := by
  by_cases hp : TrimPrefix r.path (str "/") = str ""
  · rw [lookupHandler_root s r hp]
  · cases hv : s (TrimPrefix r.path (str "/")) with
    | none => rw [lookupHandler_missing s r hp hv]
    | some v => rw [lookupHandler_found s r v hp hv]

theorem indexHandler_urlMap (s : Store) (r : Request) : (indexHandler s r).urlMap = s := by
  unfold indexHandler
  split <;> rfl

/-! ## Lemmas: sequences of requests -/

theorem serve_total (s : Store) (c : Call) : ∃ out, serve s c = some out := by
  cases c with
  | index r => exact ⟨_, rfl⟩
  | shorten r rnd => exact shortenHandler_total s r rnd
  | lookup r => exact ⟨_, rfl⟩

theorem put_valuesHaveScheme (s : Store) (k u : GoString) (h : ValuesHaveScheme s) :
    ValuesHaveScheme (s.put k (normalizeURL u)) := by
  intro k' v hv
  by_cases hk : k' = k
  · rw [hk, Store.put_same] at hv
    rw [← Option.some.inj hv]
    exact normalizeURL_scheme u
  · rw [Store.put_other _ _ _ _ hk] at hv
    exact h k' v hv

theorem shortenHandler_cases (s : Store) (r : Request) (rnd : Rand6) (out : Outcome)
    (h : shortenHandler s r rnd = some out) :
    out.urlMap = s ∨
      (r.method = str "POST" ∧ r.formURL ≠ str "" ∧
        out.urlMap = s.put ((tokenIdx rnd).map encode) (normalizeURL r.formURL)) := by
  by_cases hm : r.method = str "POST"
  · by_cases hu : r.formURL = str ""
    · left
      unfold shortenHandler at h
      simp only [hm, hu, if_true] at h
      rw [← Option.some.inj h]
    · right
      rw [shortenHandler_post s r rnd hm hu] at h
      rw [← Option.some.inj h]
      exact ⟨hm, hu, rfl⟩
  · left
    unfold shortenHandler at h
    simp only [hm, if_false] at h
    rw [← Option.some.inj h]

theorem serve_valuesHaveScheme (s : Store) (c : Call) (out : Outcome)
    (h : ValuesHaveScheme s) (hs : serve s c = some out) : ValuesHaveScheme out.urlMap := by
  cases c with
  | index r =>
    rw [← Option.some.inj hs, indexHandler_urlMap]
    exact h
  | shorten r rnd =>
    rcases shortenHandler_cases s r rnd out hs with e | ⟨_, _, e⟩
    · rw [e]; exact h
    · rw [e]; exact put_valuesHaveScheme s _ _ h
  | lookup r =>
    rw [← Option.some.inj hs, lookupHandler_urlMap]
    exact h

theorem run_valuesHaveScheme (calls : List Call) :
    ∀ s : Store, ValuesHaveScheme s → ∃ s', run s calls = some s' ∧ ValuesHaveScheme s' := by
  induction calls with
  | nil => intro s h; exact ⟨s, rfl, h⟩
  | cons c cs ih =>
    intro s h
    obtain ⟨out, hout⟩ := serve_total s c
    obtain ⟨s', hs', hv⟩ := ih out.urlMap (serve_valuesHaveScheme s c out h hout)
    refine ⟨s', ?_, hv⟩
    simp only [run, hout]
    exact hs'

theorem serve_keeps (s : Store) (c : Call) (T V : GoString) (h : s T = some V) :
    ∃ out, serve s c = some out ∧ (∃ V', out.urlMap T = some V') ∧
      (NoRegeneration T [c] → out.urlMap T = some V) := by
  obtain ⟨out, hout⟩ := serve_total s c
  refine ⟨out, hout, ?_⟩
  cases c with
  | index r =>
    have e : out.urlMap = s := by rw [← Option.some.inj hout, indexHandler_urlMap]
    rw [e]
    exact ⟨⟨V, h⟩, fun _ => h⟩
  | lookup r =>
    have e : out.urlMap = s := by rw [← Option.some.inj hout, lookupHandler_urlMap]
    rw [e]
    exact ⟨⟨V, h⟩, fun _ => h⟩
  | shorten r rnd =>
    rcases shortenHandler_cases s r rnd out hout with e | ⟨hm, hu, e⟩
    · rw [e]
      exact ⟨⟨V, h⟩, fun _ => h⟩
    · rw [e]
      by_cases hk : T = (tokenIdx rnd).map encode
      · refine ⟨⟨normalizeURL r.formURL, by rw [hk, Store.put_same]⟩, ?_⟩
        intro hno
        exact absurd (by rw [generateShortURL_eq, hk])
          (hno r rnd (List.mem_singleton.2 rfl) hm hu)
      · rw [Store.put_other _ _ _ _ hk]
        exact ⟨⟨V, h⟩, fun _ => h⟩

theorem run_keeps (T : GoString) (calls : List Call) :
    ∀ (s : Store) (V : GoString), s T = some V →
      ∃ s', run s calls = some s' ∧ (∃ V', s' T = some V') ∧
        (NoRegeneration T calls → s' T = some V) := by
  induction calls with
  | nil => intro s V h; exact ⟨s, rfl, ⟨V, h⟩, fun _ => h⟩
  | cons c cs ih =>
    intro s V h
    obtain ⟨out, hout, ⟨V1, hV1⟩, hkeep⟩ := serve_keeps s c T V h
    obtain ⟨s', hs', hsome, hsame⟩ := ih out.urlMap V1 hV1
    refine ⟨s', ?_, hsome, ?_⟩
    · simp only [run, hout]
      exact hs'
    · intro hno
      have h1 : NoRegeneration T [c] := fun r rnd hmem =>
        hno r rnd (List.mem_cons.2 (Or.inl (List.mem_singleton.1 hmem)))
      have h2 : NoRegeneration T cs := fun r rnd hmem =>
        hno r rnd (List.mem_cons_of_mem c hmem)
      have e : V1 = V := Option.some.inj ((hV1.symm).trans (hkeep h1))
      rw [← e]
      exact hsame h2

/-! ## The claims -/

/-- C1: round trip of shorten then lookup. For every store, every `POST /shorten`
request with a non-empty url `U` and every six random bytes, the handler returns,
generates a token `T` and stores the mapping; `T` is non-empty, stripping the
leading `/` from `"/" + T` gives back `T`, and the lookup handler on path
`"/" + T` over the resulting store answers a 301 redirect whose target is the
stored value: `U` itself when `U` starts with `http://` or `https://`,
otherwise `"https://" + U`. -/
theorem shorten_then_lookup_redirects (s : Store) (r : Request) (rnd : Rand6)
    (m f : GoString) (hm : r.method = str "POST") (hu : r.formURL ≠ str "") :
    ∃ T out, shortenHandler s r rnd = some out ∧ out.generated = some T ∧
      T ≠ str "" ∧ TrimPrefix (str "/" ++ T) (str "/") = T ∧
      out.urlMap T = some (normalizeRef r.formURL) ∧
      (lookupHandler out.urlMap ⟨m, str "/" ++ T, f⟩).resp =
        .redirect (normalizeRef r.formURL) 301 ∧
      (lookupHandler out.urlMap ⟨m, str "/" ++ T, f⟩).resp.status = 301 := by
  have hT : (tokenIdx rnd).map encode ≠ str "" := by
    rw [str_empty]; simp [tokenIdx]
  have htrim := TrimPrefix_append (str "/") ((tokenIdx rnd).map encode)
  have hlook := lookupHandler_found
    (s.put ((tokenIdx rnd).map encode) (normalizeURL r.formURL))
    ⟨m, str "/" ++ (tokenIdx rnd).map encode, f⟩ (normalizeURL r.formURL)
    (by rw [htrim]; exact hT) (by rw [htrim]; exact Store.put_same _ _ _)
  refine ⟨(tokenIdx rnd).map encode, _, shortenHandler_post s r rnd hm hu, rfl, hT, htrim, ?_, ?_, ?_⟩
  · rw [← normalizeURL_eq_ref]
    exact Store.put_same _ _ _
  · rw [hlook, normalizeURL_eq_ref]
    rfl
  · rw [hlook]
    rfl

/-- C1, the scenario of the specification: `POST url=example.com` on the empty
store with all-zero random bytes, then `GET /AAAAAA`. -/
theorem shorten_then_lookup_redirects_witness :
    (postShorten (str "example.com")).method = str "POST" ∧
    (postShorten (str "example.com")).formURL ≠ str "" ∧
    ∃ T out, shortenHandler emptyStore (postShorten (str "example.com")) zeroRand = some out ∧
      out.generated = some T ∧ T ≠ str "" ∧ TrimPrefix (str "/" ++ T) (str "/") = T ∧
      out.urlMap T = some (normalizeRef (postShorten (str "example.com")).formURL) ∧
      (lookupHandler out.urlMap ⟨str "GET", str "/" ++ T, str ""⟩).resp =
        .redirect (normalizeRef (postShorten (str "example.com")).formURL) 301 ∧
      (lookupHandler out.urlMap ⟨str "GET", str "/" ++ T, str ""⟩).resp.status = 301 :=
  ⟨by decide, by decide,
    shorten_then_lookup_redirects emptyStore (postShorten (str "example.com")) zeroRand
      (str "GET") (str "") (by decide) (by decide)⟩

/-- C2: URL normalization equals the reference definition. The URL check of the
`/shorten` handler computes the reference normalization, and for every non-empty
submitted `u` the value stored at the generated token is `u` when `u` starts with
`http://` or with `https://` (exact, case-sensitive byte comparison) and
`"https://" ++ u` otherwise. -/
theorem shorten_stores_normalized (s : Store) (r : Request) (rnd : Rand6)
    (hm : r.method = str "POST") (hu : r.formURL ≠ str "") :
    normalizeURL r.formURL = normalizeRef r.formURL ∧
    ∃ T out, shortenHandler s r rnd = some out ∧ out.generated = some T ∧
      out.urlMap T = some (normalizeRef r.formURL) ∧
      ((str "http://" <+: r.formURL ∨ str "https://" <+: r.formURL) →
        out.urlMap T = some r.formURL) ∧
      (¬ (str "http://" <+: r.formURL ∨ str "https://" <+: r.formURL) →
        out.urlMap T = some (str "https://" ++ r.formURL)) := by
  have hst : (s.put ((tokenIdx rnd).map encode) (normalizeURL r.formURL))
      ((tokenIdx rnd).map encode) = some (normalizeRef r.formURL) := by
    rw [← normalizeURL_eq_ref]
    exact Store.put_same _ _ _
  refine ⟨normalizeURL_eq_ref _, (tokenIdx rnd).map encode, _,
    shortenHandler_post s r rnd hm hu, rfl, hst, ?_, ?_⟩
  · intro h
    refine hst.trans ?_
    rw [normalizeRef, if_pos h]
  · intro h
    refine hst.trans ?_
    rw [normalizeRef, if_neg h]

/-- C2 at an upper-case scheme: `HTTP://a` is not recognised and gets the prefix. -/
theorem shorten_stores_normalized_witness :
    (postShorten (str "HTTP://a")).method = str "POST" ∧
    (postShorten (str "HTTP://a")).formURL ≠ str "" ∧
    normalizeURL (str "HTTP://a") = str "https://HTTP://a" ∧
    (normalizeURL (postShorten (str "HTTP://a")).formURL =
        normalizeRef (postShorten (str "HTTP://a")).formURL ∧
      ∃ T out, shortenHandler emptyStore (postShorten (str "HTTP://a")) zeroRand = some out ∧
        out.generated = some T ∧
        out.urlMap T = some (normalizeRef (postShorten (str "HTTP://a")).formURL) ∧
        ((str "http://" <+: (postShorten (str "HTTP://a")).formURL ∨
            str "https://" <+: (postShorten (str "HTTP://a")).formURL) →
          out.urlMap T = some (postShorten (str "HTTP://a")).formURL) ∧
        (¬ (str "http://" <+: (postShorten (str "HTTP://a")).formURL ∨
            str "https://" <+: (postShorten (str "HTTP://a")).formURL) →
          out.urlMap T = some (str "https://" ++ (postShorten (str "HTTP://a")).formURL))) :=
  ⟨by decide, by decide, by decide,
    shorten_stores_normalized emptyStore (postShorten (str "HTTP://a")) zeroRand
      (by decide) (by decide)⟩

/-- C3: empty input is rejected atomically. For every store, a POST to `/shorten`
whose url field is empty returns a 400 response (`http.Error` with
`StatusBadRequest`), calls `generateShortURL` not at all, and leaves the store
equal to the store before the request. -/
theorem shorten_empty_rejected (s : Store) (r : Request) (rnd : Rand6)
    (hm : r.method = str "POST") (hu : r.formURL = str "") :
    ∃ out, shortenHandler s r rnd = some out ∧
      out.resp = .error (str "URLを入力してください") 400 ∧ out.resp.status = 400 ∧
      out.generated = none ∧ out.urlMap = s := by
  refine ⟨⟨s, .error (str "URLを入力してください") StatusBadRequest, none⟩, ?_, rfl, rfl, rfl, rfl⟩
  unfold shortenHandler
  simp only [hm, hu, if_true]

/-- C3 at `POST url=` on the empty store. -/
theorem shorten_empty_rejected_witness :
    (postShorten (str "")).method = str "POST" ∧ (postShorten (str "")).formURL = str "" ∧
    ∃ out, shortenHandler emptyStore (postShorten (str "")) zeroRand = some out ∧
      out.resp = .error (str "URLを入力してください") 400 ∧ out.resp.status = 400 ∧
      out.generated = none ∧ out.urlMap = emptyStore :=
  ⟨by decide, by decide,
    shorten_empty_rejected emptyStore (postShorten (str "")) zeroRand (by decide) (by decide)⟩

/-- C4: unknown tokens are reported as not found. For every store and request, the
lookup handler answers 404 exactly when the path with one leading `/` stripped is
non-empty and is not a key of the store; in that case the response is the
`http.Error` call with `StatusNotFound`, it is no redirect, and the store is
unchanged. -/
theorem lookup_unknown_not_found (s : Store) (r : Request) :
    ((lookupHandler s r).resp.status = 404 ↔
      (TrimPrefix r.path (str "/") ≠ str "" ∧ s (TrimPrefix r.path (str "/")) = none)) ∧
    ((TrimPrefix r.path (str "/") ≠ str "" ∧ s (TrimPrefix r.path (str "/")) = none) →
      (lookupHandler s r).resp = .error (str "URLが見つかりません") 404 ∧
      (lookupHandler s r).resp.isRedirect = false ∧
      (lookupHandler s r).urlMap = s) := by
  constructor
  · by_cases hp : TrimPrefix r.path (str "/") = str ""
    · rw [lookupHandler_root s r hp]
      simp [Response.status, StatusOK, hp]
    · cases hv : s (TrimPrefix r.path (str "/")) with
      | none =>
        rw [lookupHandler_missing s r hp hv]
        simp [Response.status, StatusNotFound, hp]
      | some v =>
        rw [lookupHandler_found s r v hp hv]
        simp [Response.status, StatusMovedPermanently]
  · rintro ⟨hp, hv⟩
    rw [lookupHandler_missing s r hp hv]
    exact ⟨rfl, rfl, rfl⟩

/-- C5: the token has fixed length and URL-safe characters. For every six random
bytes the URL-safe base64 encoding has length 8, so the slice `[:6]` is in range
and `generateShortURL` returns; the token has exactly 6 characters, each in
`A-Z`, `a-z`, `0-9`, `-`, `_`, and none is `=`, `/`, `+` or `.`. -/
theorem generateShortURL_fixed_length_urlsafe (rnd : Rand6) :
    (EncodeToString (randRead rnd)).length = 8 ∧
    ∃ t, generateShortURL rnd = some t ∧ t.length = 6 ∧
      ∀ c ∈ t, isURLSafe c = true ∧
        c ≠ ('=').toNat ∧ c ≠ ('/').toNat ∧ c ≠ ('+').toNat ∧ c ≠ ('.').toNat := by
  refine ⟨?_, (tokenIdx rnd).map encode, generateShortURL_eq rnd, ?_, ?_⟩
  · rw [EncodeToString_randRead]
    simp [tokenIdx]
  · simp [tokenIdx]
  · intro c hc
    obtain ⟨i, hi, rfl⟩ := List.mem_map.1 hc
    have hs := encode_urlSafe i (tokenIdx_lt rnd i hi)
    exact ⟨hs, isURLSafe_excludes _ hs⟩

/-- C6: store invariant. Starting from the empty store, every finite sequence of
requests served by the three handlers (any methods, url fields, paths and random
bytes) runs to a store in which every value begins with `http://` or `https://`. -/
theorem store_values_have_scheme (calls : List Call) :
    ∃ s, run emptyStore calls = some s ∧
      ∀ k v, s k = some v →
        HasPrefix v (str "http://") = true ∨ HasPrefix v (str "https://") = true :=
  run_valuesHaveScheme calls emptyStore (fun _ _ h => by simp [emptyStore] at h)

/-- C7 as stated fails: after `POST url=a.com` the store maps `AAAAAA` to
`https://a.com`; a later `POST url=b.com` drawing the same random bytes generates
the same token and the store then maps `AAAAAA` to `https://b.com`. -/
theorem entry_overwritten_on_collision :
    (shortenHandler emptyStore (postShorten (str "a.com")) zeroRand).map (fun o => o.generated)
      = some (some (str "AAAAAA")) ∧
    (run emptyStore [Call.shorten (postShorten (str "a.com")) zeroRand]).bind
      (fun m => m (str "AAAAAA")) = some (str "https://a.com") ∧
    (run emptyStore [Call.shorten (postShorten (str "a.com")) zeroRand,
        Call.shorten (postShorten (str "b.com")) zeroRand]).bind
      (fun m => m (str "AAAAAA")) = some (str "https://b.com") ∧
    str "https://b.com" ≠ str "https://a.com" := by
  decide

/-- C7, amended: entries are never deleted, and are updated only by a later storing
shorten request that generates the same token. Once the store maps `T` to `V`,
every later sequence of requests runs to a store in which `T` is still a key, and
in which `T` still maps to `V` provided no later `POST /shorten` with a non-empty
url generates the token `T`. -/
theorem entry_kept_unless_token_regenerated (s : Store) (calls : List Call)
    (T V : GoString) (h : s T = some V) :
    ∃ s', run s calls = some s' ∧ (∃ V', s' T = some V') ∧
      (NoRegeneration T calls → s' T = some V) :=
  run_keeps T calls s V h

/-- C7 amended, at a store holding `AAAAAA`, followed by a lookup and a shorten
that draws other random bytes. -/
theorem entry_kept_unless_token_regenerated_witness :
    (emptyStore.put (str "AAAAAA") (str "https://a.com")) (str "AAAAAA")
      = some (str "https://a.com") ∧
    ∃ s', run (emptyStore.put (str "AAAAAA") (str "https://a.com"))
        [Call.lookup (getPath (str "/AAAAAA")),
          Call.shorten (postShorten (str "b.com")) ![0, 0, 0, 0, 16, 0]] = some s' ∧
      (∃ V', s' (str "AAAAAA") = some V') ∧
      (NoRegeneration (str "AAAAAA")
          [Call.lookup (getPath (str "/AAAAAA")),
            Call.shorten (postShorten (str "b.com")) ![0, 0, 0, 0, 16, 0]] →
        s' (str "AAAAAA") = some (str "https://a.com")) :=
  ⟨by decide,
    entry_kept_unless_token_regenerated (emptyStore.put (str "AAAAAA") (str "https://a.com"))
      [Call.lookup (getPath (str "/AAAAAA")),
        Call.shorten (postShorten (str "b.com")) ![0, 0, 0, 0, 16, 0]]
      (str "AAAAAA") (str "https://a.com") (by decide)⟩

/-- C8: a successful shorten is an unconditional put at the generated token and
changes nothing else. For every store (whether or not it already has the token
as a key), non-empty url and random bytes, the handler returns the confirmation
page, the store afterwards maps the generated token `T` to the normalized url,
and every other key looks up as before. -/
theorem shorten_is_unconditional_put (s : Store) (r : Request) (rnd : Rand6)
    (hm : r.method = str "POST") (hu : r.formURL ≠ str "") :
    ∃ T out, generateShortURL rnd = some T ∧ shortenHandler s r rnd = some out ∧
      out.generated = some T ∧
      out.urlMap T = some (normalizeURL r.formURL) ∧
      (∀ K, K ≠ T → out.urlMap K = s K) ∧
      out.resp = .page (str "http://localhost:8080/" ++ T) ∧ out.resp.status = 200 :=
  ⟨(tokenIdx rnd).map encode, _, generateShortURL_eq rnd, shortenHandler_post s r rnd hm hu, rfl,
    Store.put_same _ _ _, fun K hK => Store.put_other _ _ _ K hK, rfl, rfl⟩

/-- C8 at a colliding token: the store already maps `AAAAAA`, and the request
draws the bytes that encode to `AAAAAA` again. -/
theorem shorten_is_unconditional_put_witness :
    (postShorten (str "b.com")).method = str "POST" ∧
    (postShorten (str "b.com")).formURL ≠ str "" ∧
    (emptyStore.put (str "AAAAAA") (str "https://a.com")) (str "AAAAAA")
      = some (str "https://a.com") ∧
    ∃ T out, generateShortURL zeroRand = some T ∧
      shortenHandler (emptyStore.put (str "AAAAAA") (str "https://a.com"))
        (postShorten (str "b.com")) zeroRand = some out ∧
      out.generated = some T ∧
      out.urlMap T = some (normalizeURL (postShorten (str "b.com")).formURL) ∧
      (∀ K, K ≠ T → out.urlMap K = (emptyStore.put (str "AAAAAA") (str "https://a.com")) K) ∧
      out.resp = .page (str "http://localhost:8080/" ++ T) ∧ out.resp.status = 200 :=
  ⟨by decide, by decide, by decide,
    shorten_is_unconditional_put (emptyStore.put (str "AAAAAA") (str "https://a.com"))
      (postShorten (str "b.com")) zeroRand (by decide) (by decide)⟩

/-- C9: route registration in `main`. The second registration on the pattern `/`
panics ("multiple registrations"), so `main` does not reach `ListenAndServe`
with any routing table. -/
theorem main_panics_on_second_root_registration :
    main = .error (.multipleRegistrations (str "/")) ∧ ∀ mux, main ≠ .ok mux := by
  have h : main = .error (.multipleRegistrations (str "/")) := rfl
  refine ⟨h, ?_⟩
  intro mux hm
  rw [h] at hm
  cases hm

/-- C10: the token uses 36 of the 48 random bits. `generateShortURL` always
returns a token; two buffers give the same token exactly when they agree on
bytes 0-3 and on the high four bits of byte 4 (byte 5 and the low four bits of
byte 4 never matter); and there are exactly `2^36` possible tokens. -/
theorem generateShortURL_uses_36_bits :
    (∀ r : Rand6, ∃ t, generateShortURL r = some t) ∧
    (∀ r r' : Rand6, generateShortURL r = generateShortURL r' ↔
      (r 0 = r' 0 ∧ r 1 = r' 1 ∧ r 2 = r' 2 ∧ r 3 = r' 3 ∧
        (r 4).val / 16 = (r' 4).val / 16)) ∧
    possibleTokens.ncard = 2 ^ 36 := by
  refine ⟨fun r => ⟨_, generateShortURL_eq r⟩, ?_, possibleTokens_ncard⟩
  intro r r'
  rw [generateShortURL_eq_iff]
  simp only [key36, Prod.mk.injEq, Fin.mk.injEq]

end ShortURL
